import Mathlib

/-!
Shallow embedding of the stress-analysis backend (src/backend/main.py) and
proofs of the specified properties.  The numeric kernels that wrap external
libraries (scipy's welch periodogram and hilbert transform, PyEMD's CEEMDAN)
enter as function parameters; everything downstream of them — masking,
trapezoidal integration, thresholds, the segment loop, classification,
aggregation, caching and data acquisition — is embedded directly from the
source.
-/

namespace StressAnalysis

/-- Embeds IEEE float values as either a rational number or the not-a-number
sentinel, as produced for an undefined baseline ratio (main.py line 214,
np.nan). -/
inductive FVal where
  | nan : FVal
  | val : ℚ → FVal
deriving DecidableEq

/-- Embeds the Python float comparison a > b on possibly-NaN values: any
comparison involving NaN is false (IEEE semantics, relied on at line 240). -/
def FVal.gt : FVal → FVal → Bool
  | FVal.val a, FVal.val b => decide (b < a)
  | _, _ => false

/-- Embeds line 258: float(ibi_ratio) if not np.isnan(ibi_ratio) else 0.0. -/
def FVal.orZero : FVal → ℚ
  | FVal.nan => 0
  | FVal.val q => q

/-- Trapezoidal integration np.trapz(y, x) over a list of (x, y) sample
points (line 61). -/
def trapz : List (ℚ × ℚ) → ℚ
  | [] => 0
  | [_] => 0
  | p :: q :: rest => (q.1 - p.1) * (p.2 + q.2) / 2 + trapz (q :: rest)

@[simp]
theorem trapz_nil : trapz [] = 0 := rfl

@[simp]
theorem trapz_single (p : ℚ × ℚ) : trapz [p] = 0 := rfl

@[simp]
theorem trapz_cons_cons (p q : ℚ × ℚ) (rest : List (ℚ × ℚ)) :
    trapz (p :: q :: rest) = (q.1 - p.1) * (p.2 + q.2) / 2 + trapz (q :: rest) := rfl

/-- Membership of a frequency sample in the closed band [lo, hi] (the mask of
line 60). -/
def inBand (lo hi : ℚ) (p : ℚ × ℚ) : Bool := decide (lo ≤ p.1) && decide (p.1 ≤ hi)

/-- Embeds calculate_power (lines 58-61).  The Welch periodogram itself
(scipy.signal.welch, line 59) is a numeric kernel abstracted as the parameter
welchF mapping a segment to its list of (frequency, power) sample points,
with frequencies ascending and powers non-negative; the band mask and the
trapezoidal integration are embedded exactly. -/
def calculate_power (welchF : List ℚ → List (ℚ × ℚ)) (segment : List ℚ)
    (low_freq high_freq : ℚ) : ℚ :=
  trapz ((welchF segment).filter (inBand low_freq high_freq))

/-- Elementwise numpy addition of two series (lines 212, 234, 237). -/
def addL (a b : List ℚ) : List ℚ := List.zipWith (fun x y => x + y) a b

/-- Python slice l[a:b] (clamping at both ends, as numpy slicing does). -/
def pySlice (l : List ℚ) (a b : ℕ) : List ℚ := (l.take b).drop a

/-- Python round(x, 2) (lines 245, 248, 251); the tie-breaking mode of float
rounding is immaterial to every property stated below. -/
def round2 (q : ℚ) : ℚ := ((round (q * 100) : ℤ) : ℚ) / 100

/-- Python round(x, 6) (line 183). -/
def round6 (q : ℚ) : ℚ := ((round (q * 1000000) : ℤ) : ℚ) / 1000000

/-- Python random.uniform(a, b) modeled as a + (b - a) * u, where u is the
unit-interval draw supplied by the seeded pseudo-random stream. -/
def uniform (a b u : ℚ) : ℚ := a + (b - a) * u

/-- Mirrors the pydantic model MinuteResult (lines 155-161). -/
structure MinuteResult where
  minute : ℕ
  stress_level : String
  numeric_label : ℕ
  oxygen_level : ℚ
  ibi_lf_hf_ratio : ℚ
  scl_lf_power : ℚ
deriving DecidableEq

/-- Mirrors the pydantic model AnalysisResponse (lines 163-168). -/
structure AnalysisResponse where
  results : List MinuteResult
  stress_score : String
  total_minutes : ℕ
  stressed_minutes : ℕ
  oxygen_levels : List ℚ
deriving DecidableEq

/-- Mirrors the pydantic model AnalysisRequest (lines 150-153); the
use_dummy_data field is declared by the source but never read by the
handler. -/
structure AnalysisRequest where
  minutes : ℤ
  thingspeak_url : Option String
  use_dummy_data : Bool
deriving DecidableEq

/-- Embeds the classification block (lines 240-251): the two flags, the
three-way label, and the oxygen draw of the branch taken; u is this
segment's uniform draw. -/
def classify_segment (ibi_ratio : FVal) (scl_lf : ℚ) (ibi_baseline : FVal)
    (scl_baseline : ℚ) (u : ℚ) : String × ℕ × ℚ :=
  let ibi_flag := FVal.gt ibi_ratio ibi_baseline
  let scl_flag := decide (scl_baseline < scl_lf)
  if ibi_flag && scl_flag then ("High Stress", 2, round2 (uniform 94 96 u))
  else if ibi_flag || scl_flag then ("Mild Stress", 1, round2 (uniform 96 98 u))
  else ("No Stress", 0, round2 (uniform 98 100 u))

/-- IBI ratio of segment m (lines 231-236): LF power of IMF2+IMF3 over HF
power of IMF1 on the slice [180 + 60 m, 180 + 60 (m+1)), NaN when the HF
power is exactly zero. -/
def segment_ibi_ratio (welchF : List ℚ → List (ℚ × ℚ))
    (ibi_imf1 ibi_imf2 ibi_imf3 : List ℚ) (m : ℕ) : FVal :=
  let start := 180 + m * 60
  let s1 := pySlice ibi_imf1 start (start + 60)
  let s2 := pySlice ibi_imf2 start (start + 60)
  let s3 := pySlice ibi_imf3 start (start + 60)
  let lf := calculate_power welchF (addL s2 s3) 0.04 0.1
  let hf := calculate_power welchF s1 0.1 0.4
  if hf ≠ 0 then FVal.val (lf / hf) else FVal.nan

/-- EDA low-frequency power of segment m (line 237). -/
def segment_scl_lf (welchF : List ℚ → List (ℚ × ℚ))
    (scl_imf2 scl_imf3 : List ℚ) (m : ℕ) : ℚ :=
  let start := 180 + m * 60
  calculate_power welchF
    (addL (pySlice scl_imf2 start (start + 60)) (pySlice scl_imf3 start (start + 60)))
    0.04 0.25

/-- One MinuteResult of the loop body (lines 230-260). -/
def segResult (welchF : List ℚ → List (ℚ × ℚ))
    (ibi_imf1 ibi_imf2 ibi_imf3 scl_imf2 scl_imf3 : List ℚ)
    (ibi_baseline : FVal) (scl_baseline : ℚ) (u : ℕ → ℚ) (m : ℕ) : MinuteResult :=
  let ibi_ratio := segment_ibi_ratio welchF ibi_imf1 ibi_imf2 ibi_imf3 m
  let scl_lf := segment_scl_lf welchF scl_imf2 scl_imf3 m
  let c := classify_segment ibi_ratio scl_lf ibi_baseline scl_baseline (u m)
  { minute := m + 1
    stress_level := c.1
    numeric_label := c.2.1
    oxygen_level := c.2.2
    ibi_lf_hf_ratio := FVal.orZero ibi_ratio
    scl_lf_power := scl_lf }

/-- The for-loop of lines 223-260: k iterations remain, m is the current
segment index, and the loop breaks when the segment would run past the end
of the signal of length L (lines 227-228). -/
def segLoop (welchF : List ℚ → List (ℚ × ℚ))
    (ibi_imf1 ibi_imf2 ibi_imf3 scl_imf2 scl_imf3 : List ℚ)
    (ibi_baseline : FVal) (scl_baseline : ℚ) (u : ℕ → ℚ) (L : ℕ) :
    ℕ → ℕ → List MinuteResult
  | 0, _ => []
  | k + 1, m =>
    if L < 180 + (m + 1) * 60 then []
    else
      segResult welchF ibi_imf1 ibi_imf2 ibi_imf3 scl_imf2 scl_imf3
          ibi_baseline scl_baseline u m ::
        segLoop welchF ibi_imf1 ibi_imf2 ibi_imf3 scl_imf2 scl_imf3
          ibi_baseline scl_baseline u L k (m + 1)

/-- Embeds line 221: analysis_minutes as Python integer arithmetic, with
len(ibi_signal) = L, segment_length = 60 and baseline_duration = 180. -/
def analysis_minutes (minutes : ℤ) (L : ℕ) : ℤ :=
  min minutes ((L : ℤ) / 60 - 180 / 60)

/-- Embeds the IBI baseline threshold (lines 211-214): LF power over HF power
of the first 180 samples of the frequency series, NaN when the HF power is
exactly zero. -/
def ibi_baseline_of (welchF : List ℚ → List (ℚ × ℚ))
    (ibi_imf1 ibi_imf2 ibi_imf3 : List ℚ) : FVal :=
  let ibi_lf_base :=
    calculate_power welchF (addL (pySlice ibi_imf2 0 180) (pySlice ibi_imf3 0 180)) 0.04 0.1
  let ibi_hf_base := calculate_power welchF (pySlice ibi_imf1 0 180) 0.1 0.4
  if ibi_hf_base ≠ 0 then FVal.val (ibi_lf_base / ibi_hf_base) else FVal.nan

/-- Embeds the EDA baseline threshold (line 215). -/
def scl_baseline_of (welchF : List ℚ → List (ℚ × ℚ)) (scl_imf2 scl_imf3 : List ℚ) : ℚ :=
  calculate_power welchF (addL (pySlice scl_imf2 0 180) (pySlice scl_imf3 0 180)) 0.04 0.25

/-- Embeds lines 210-260: the baseline thresholds followed by the segment
loop.  The five instantaneous-frequency series (CEEMDAN plus Hilbert, numeric
kernels) enter as list parameters; L is len(ibi_signal), minutes the
requested count, u the per-segment uniform draws of the seeded generator. -/
def analysisResults (welchF : List ℚ → List (ℚ × ℚ))
    (ibi_imf1 ibi_imf2 ibi_imf3 scl_imf2 scl_imf3 : List ℚ)
    (L : ℕ) (minutes : ℤ) (u : ℕ → ℚ) : List MinuteResult :=
  segLoop welchF ibi_imf1 ibi_imf2 ibi_imf3 scl_imf2 scl_imf3
    (ibi_baseline_of welchF ibi_imf1 ibi_imf2 ibi_imf3)
    (scl_baseline_of welchF scl_imf2 scl_imf3)
    u L (analysis_minutes minutes L).toNat 0

/-- Embeds lines 262-273: the stress score and the response assembly. -/
def aggregate (results : List MinuteResult) : AnalysisResponse :=
  let stressed_minutes := results.countP (fun r => decide (0 < r.numeric_label))
  { results := results
    stress_score := toString stressed_minutes ++ "/" ++ toString results.length
    total_minutes := results.length
    stressed_minutes := stressed_minutes
    oxygen_levels := results.map (fun r => r.oxygen_level) }

/-- Column-pair frame mirroring the pandas DataFrame of HR and EDA series. -/
structure DataFrame where
  HR : List ℚ
  EDA : List ℚ
deriving DecidableEq

/-- Outcome of the HTTP GET plus JSON parse inside fetch_thingspeak_data:
failure covers timeout, HTTP error, JSON decoding errors and a payload
without a feeds key (the ValueError of line 143, caught at line 144); feeds
carries the parsed field1/field2 columns. -/
inductive FetchOutcome where
  | failure : FetchOutcome
  | feeds : List ℚ → List ℚ → FetchOutcome

/-- Python substring test (sub in s), via splitOn. -/
def strContains (s sub : String) : Bool := decide ((s.splitOn sub).length ≠ 1)

/-- Embeds fetch_thingspeak_data (lines 114-147): the dummy-endpoint check
and every failure path return none (the source's None), and a feeds payload
is truncated to equal column lengths (lines 132-135).  The network call is
the parameter net. -/
def fetch_thingspeak_data (net : String → FetchOutcome) (thingspeak_url : String) :
    Option DataFrame :=
  if strContains thingspeak_url "dummy-thingspeak" || strContains thingspeak_url "localhost:8000"
  then none
  else
    match net thingspeak_url with
    | FetchOutcome.failure => none
    | FetchOutcome.feeds hr_data eda_data =>
      let min_len := min hr_data.length eda_data.length
      some { HR := hr_data.take min_len, EDA := eda_data.take min_len }

/-- Embeds generate_dummy_data (lines 77-111).  The shape is exact:
(180 + minutes) * 60 samples per column (line 81; an np.arange of a negative
count is empty, hence toNat).  The per-sample values — sinusoids plus seeded
np.random draws, clipped — are supplied by the streams hr and eda, since the
spec places their exact shape outside the contract. -/
def generate_dummy_data (hr eda : ℕ → ℚ) (minutes : ℤ) : DataFrame :=
  let total_samples := ((180 + minutes) * 60).toNat
  { HR := (List.range total_samples).map hr
    EDA := (List.range total_samples).map eda }

/-- Embeds lines 174-180: try ThingSpeak when a non-empty url is given
(Python truthiness makes the empty string skip the fetch), and fall back to
dummy data when there is no url, the fetch failed, or the frame is empty. -/
def acquire_data (net : String → FetchOutcome) (hr eda : ℕ → ℚ) (minutes : ℤ)
    (thingspeak_url : Option String) : DataFrame :=
  let df0 : Option DataFrame :=
    match thingspeak_url with
    | none => none
    | some url => if url = "" then none else fetch_thingspeak_data net url
  match df0 with
  | none => generate_dummy_data hr eda minutes
  | some df => if df.HR.length = 0 then generate_dummy_data hr eda minutes else df

/-- Embeds the analyze_stress handler (lines 170-273).  freqOf abstracts the
deterministic decomposition plus instantaneous-frequency extraction: freqOf s
i is the frequency series of IMF_i of signal s (perform_ceemdan_cached plus
compute_instant_freq, lines 193-208); welchF, net, hr, eda, u are the other
environment parameters. -/
def analyze_stress (welchF : List ℚ → List (ℚ × ℚ)) (freqOf : List ℚ → ℕ → List ℚ)
    (net : String → FetchOutcome) (hr eda : ℕ → ℚ) (u : ℕ → ℚ)
    (request : AnalysisRequest) : AnalysisResponse :=
  let df := acquire_data net hr eda request.minutes request.thingspeak_url
  let ibi_signal := (df.HR).map (fun h => round6 (60000 / h))
  let scl_signal := df.EDA
  let ibi_imf1 := freqOf ibi_signal 1
  let ibi_imf2 := freqOf ibi_signal 2
  let ibi_imf3 := freqOf ibi_signal 3
  let scl_imf2 := freqOf scl_signal 2
  let scl_imf3 := freqOf scl_signal 3
  aggregate
    (analysisResults welchF ibi_imf1 ibi_imf2 ibi_imf3 scl_imf2 scl_imf3
      ibi_signal.length request.minutes u)

/-- Cache record pickled by perform_ceemdan_cached (line 54): the stored
content hash alongside the decomposition. -/
structure CacheEntry (H : Type) where
  hash : H
  imfs : List (List ℚ)
deriving DecidableEq

/-- Embeds perform_ceemdan_cached (lines 34-55) against an explicit cache
state: none models a missing or unreadable cache file (the except of line
43), a hit returns the stored imfs and leaves the entry unchanged, and
otherwise the deterministic seeded decomposition decomp recomputes and the
entry is overwritten (lines 46-55).  hashF abstracts hash(signal.tobytes()).
Returns the imfs together with the cache state after the call. -/
def perform_ceemdan_cached {H : Type} [DecidableEq H]
    (decomp : List ℚ → List (List ℚ)) (hashF : List ℚ → H)
    (signal : List ℚ) (cache : Option (CacheEntry H)) :
    List (List ℚ) × Option (CacheEntry H) :=
  match cache with
  | some cached_data =>
    if cached_data.hash = hashF signal then (cached_data.imfs, some cached_data)
    else (decomp signal, some { hash := hashF signal, imfs := decomp signal })
  | none => (decomp signal, some { hash := hashF signal, imfs := decomp signal })

/-- Frequencies of a Welch PSD sample list are ascending (a property of
scipy.signal.welch's frequency grid, assumed of the abstracted kernel). -/
def SortedF (l : List (ℚ × ℚ)) : Prop := l.Pairwise (fun p q => p.1 ≤ q.1)

/-- Powers of a Welch PSD sample list are non-negative (a property of the
periodogram, assumed of the abstracted kernel). -/
def NonnegP (l : List (ℚ × ℚ)) : Prop := ∀ p ∈ l, 0 ≤ p.2

/-- Concrete Welch kernel returning no frequency bins, for evaluation. -/
def wfEmpty : List ℚ → List (ℚ × ℚ) := fun _ => []

/-- Concrete Welch kernel returning two fixed bins, for evaluation. -/
def wfPts : List ℚ → List (ℚ × ℚ) := fun _ => [(1 / 10, 1), (2 / 10, 2)]

/-- Constant-zero uniform draw stream, for evaluation. -/
def uZero : ℕ → ℚ := fun _ => 0

/-- Frequency extractor returning empty series, for evaluation. -/
def freqNil : List ℚ → ℕ → List ℚ := fun _ _ => []

/-- Network stub that always fails, for evaluation. -/
def netFail : String → FetchOutcome := fun _ => FetchOutcome.failure

/-- Constant sample stream, for evaluation. -/
def hrConst : ℕ → ℚ := fun _ => 70

/-- Identity content hash, for evaluation; trivially injective. -/
def idHash : List ℚ → List ℚ := fun s => s

/-- Constant decomposition kernel, for evaluation. -/
def constDecomp : List ℚ → List (List ℚ) := fun _ => [[1]]

/-! Lemmas about trapezoidal integration over a sorted, non-negative sample
list, leading to monotonicity of calculate_power in the band. -/

theorem sortedF_tail {x : ℚ × ℚ} {l : List (ℚ × ℚ)} (h : SortedF (x :: l)) : SortedF l :=
  (List.pairwise_cons.mp h).2

theorem nonnegP_tail {x : ℚ × ℚ} {l : List (ℚ × ℚ)} (h : NonnegP (x :: l)) : NonnegP l :=
  fun p hp => h p (List.mem_cons_of_mem x hp)

theorem trapz_nonneg : ∀ l : List (ℚ × ℚ), SortedF l → NonnegP l → 0 ≤ trapz l
  | [], _, _ => le_refl 0
  | [_], _, _ => le_refl 0
  | p :: q :: rest, hs, hn => by
    rw [trapz_cons_cons]
    have h1 : p.1 ≤ q.1 := (List.pairwise_cons.mp hs).1 q (List.mem_cons_self q rest)
    have hp2 : 0 ≤ p.2 := hn p (List.mem_cons_self p (q :: rest))
    have hq2 : 0 ≤ q.2 := hn q (List.mem_cons_of_mem p (List.mem_cons_self q rest))
    have ih := trapz_nonneg (q :: rest) (sortedF_tail hs) (nonnegP_tail hn)
    have hterm : 0 ≤ (q.1 - p.1) * (p.2 + q.2) / 2 := by
      apply div_nonneg _ (by norm_num)
      exact mul_nonneg (by linarith) (by linarith)
    linarith

theorem trapz_le_cons (x : ℚ × ℚ) (l : List (ℚ × ℚ)) (hs : SortedF (x :: l))
    (hn : NonnegP (x :: l)) : trapz l ≤ trapz (x :: l) := by
  match l with
  | [] => exact le_refl 0
  | y :: rest =>
    rw [trapz_cons_cons]
    have h1 : x.1 ≤ y.1 := (List.pairwise_cons.mp hs).1 y (List.mem_cons_self y rest)
    have hx2 : 0 ≤ x.2 := hn x (List.mem_cons_self x (y :: rest))
    have hy2 : 0 ≤ y.2 := hn y (List.mem_cons_of_mem x (List.mem_cons_self y rest))
    have hterm : 0 ≤ (y.1 - x.1) * (x.2 + y.2) / 2 := by
      apply div_nonneg _ (by norm_num)
      exact mul_nonneg (by linarith) (by linarith)
    linarith

theorem trapz_le_suffix (m l : List (ℚ × ℚ)) (h : List.IsSuffix m l) (hs : SortedF l)
    (hn : NonnegP l) : trapz m ≤ trapz l := by
  obtain ⟨t, rfl⟩ := h
  induction t with
  | nil => exact le_refl _
  | cons x t ih =>
    have step := trapz_le_cons x (t ++ m) hs hn
    exact le_trans (ih (sortedF_tail hs) (nonnegP_tail hn)) step

theorem trapz_le_append : ∀ l b : List (ℚ × ℚ), SortedF (l ++ b) → NonnegP (l ++ b) →
    trapz l ≤ trapz (l ++ b)
  | [], b, hs, hn => trapz_nonneg b hs hn
  | [p], b, hs, hn => by
    have e : trapz [p] = 0 := rfl
    rw [e]
    exact trapz_nonneg (p :: b) hs hn
  | p :: q :: rest, b, hs, hn => by
    have ih := trapz_le_append (q :: rest) b (sortedF_tail hs) (nonnegP_tail hn)
    have e1 : (p :: q :: rest) ++ b = p :: q :: (rest ++ b) := rfl
    rw [e1, trapz_cons_cons, trapz_cons_cons]
    have e2 : (q :: rest) ++ b = q :: (rest ++ b) := rfl
    rw [e2] at ih
    linarith

theorem trapz_le_infix (m l : List (ℚ × ℚ)) (h : List.IsInfix m l) (hs : SortedF l)
    (hn : NonnegP l) : trapz m ≤ trapz l := by
  obtain ⟨s, t, rfl⟩ := h
  have hsuf : List.IsSuffix (m ++ t) (s ++ m ++ t) := ⟨s, by simp⟩
  have hs2 : SortedF (m ++ t) := hs.sublist hsuf.sublist
  have hn2 : NonnegP (m ++ t) := fun p hp => hn p (hsuf.sublist.mem hp)
  exact le_trans (trapz_le_append m t hs2 hn2) (trapz_le_suffix (m ++ t) _ hsuf hs hn)

theorem inBand_mono {lo hi lo2 hi2 : ℚ} (hlo : lo2 ≤ lo) (hhi : hi ≤ hi2) (p : ℚ × ℚ)
    (h : inBand lo hi p = true) : inBand lo2 hi2 p = true := by
  simp only [inBand, Bool.and_eq_true, decide_eq_true_eq] at h ⊢
  exact ⟨le_trans hlo h.1, le_trans h.2 hhi⟩

theorem filter_inBand_narrow {lo hi lo2 hi2 : ℚ} (hlo : lo2 ≤ lo) (hhi : hi ≤ hi2)
    (l : List (ℚ × ℚ)) :
    l.filter (inBand lo hi) = (l.filter (inBand lo2 hi2)).filter (inBand lo hi) := by
  rw [List.filter_filter]
  apply List.filter_congr
  intro p _
  cases hb : inBand lo hi p with
  | false => rfl
  | true => simp [hb, inBand_mono hlo hhi p hb]

theorem filter_eq_takeWhile_of_lo (lo hi : ℚ) :
    ∀ l : List (ℚ × ℚ), SortedF l → (∀ p ∈ l, lo ≤ p.1) →
      l.filter (inBand lo hi) = l.takeWhile (inBand lo hi)
  | [], _, _ => rfl
  | x :: t, hs, hlo => by
    by_cases hx : x.1 ≤ hi
    · have hb : inBand lo hi x = true := by
        simp only [inBand, Bool.and_eq_true, decide_eq_true_eq]
        exact ⟨hlo x (List.mem_cons_self x t), hx⟩
      rw [List.filter_cons_of_pos hb, List.takeWhile_cons_of_pos hb]
      have ih := filter_eq_takeWhile_of_lo lo hi t (sortedF_tail hs)
        (fun p hp => hlo p (List.mem_cons_of_mem x hp))
      rw [ih]
    · have hb : inBand lo hi x = false := by
        simp only [inBand, Bool.and_eq_false_iff, decide_eq_false_iff_not]
        right
        exact hx
      rw [List.takeWhile_cons_of_neg (by simp [hb]), List.filter_cons_of_neg (by simp [hb])]
      apply List.filter_eq_nil_iff.mpr
      intro p hp
      have hxp : x.1 ≤ p.1 := (List.pairwise_cons.mp hs).1 p hp
      simp only [inBand, Bool.and_eq_true, decide_eq_true_eq, not_and]
      intro _
      linarith

theorem filter_inBand_isInfix (lo hi : ℚ) :
    ∀ l : List (ℚ × ℚ), SortedF l → List.IsInfix (l.filter (inBand lo hi)) l
  | [], _ => ⟨[], [], rfl⟩
  | x :: t, hs => by
    cases hb : inBand lo hi x with
    | false =>
      rw [List.filter_cons_of_neg (by simp [hb])]
      obtain ⟨s, r, hr⟩ := filter_inBand_isInfix lo hi t (sortedF_tail hs)
      exact ⟨x :: s, r, by simp [hr]⟩
    | true =>
      rw [List.filter_cons_of_pos hb]
      have hxlo : lo ≤ x.1 := by
        have hb2 := hb
        simp only [inBand, Bool.and_eq_true, decide_eq_true_eq] at hb2
        exact hb2.1
      have hall : ∀ p ∈ t, lo ≤ p.1 := fun p hp =>
        le_trans hxlo ((List.pairwise_cons.mp hs).1 p hp)
      rw [filter_eq_takeWhile_of_lo lo hi t (sortedF_tail hs) hall]
      have hpre : List.IsPrefix (x :: t.takeWhile (inBand lo hi)) (x :: t) := by
        obtain ⟨r, hr⟩ := List.takeWhile_prefix (l := t) (inBand lo hi)
        exact ⟨r, by simp [hr]⟩
      exact hpre.isInfix

/-- C7: for a fixed segment and nested bands, the band power over the wider
band is at least the band power over the narrower band, given that the PSD
estimate has ascending frequencies and non-negative powers; and when no
frequency bin falls inside the band the result is 0 (empty integration). -/
theorem C7_band_power_monotone (welchF : List ℚ → List (ℚ × ℚ)) (segment : List ℚ)
    (lo hi lo2 hi2 : ℚ) (hs : SortedF (welchF segment)) (hn : NonnegP (welchF segment))
    (hlo : lo2 ≤ lo) (hhi : hi ≤ hi2) :
    calculate_power welchF segment lo hi ≤ calculate_power welchF segment lo2 hi2 ∧
    ((∀ p ∈ welchF segment, ¬(lo ≤ p.1 ∧ p.1 ≤ hi)) →
      calculate_power welchF segment lo hi = 0) := by
  constructor
  · unfold calculate_power
    rw [filter_inBand_narrow hlo hhi (welchF segment)]
    have hsub : SortedF ((welchF segment).filter (inBand lo2 hi2)) :=
      hs.sublist (List.filter_sublist (welchF segment))
    have hnn : NonnegP ((welchF segment).filter (inBand lo2 hi2)) :=
      fun p hp => hn p ((List.filter_sublist (welchF segment)).mem hp)
    exact trapz_le_infix _ _ (filter_inBand_isInfix lo hi _ hsub) hsub hnn
  · intro hempty
    unfold calculate_power
    have he : (welchF segment).filter (inBand lo hi) = [] := by
      apply List.filter_eq_nil_iff.mpr
      intro p hp
      simp only [inBand, Bool.and_eq_true, decide_eq_true_eq, not_and]
      intro h1 h2
      exact hempty p hp ⟨h1, h2⟩
    rw [he]
    exact trapz_nil

/-- Witness for C7 at the two-bin kernel: the band [1/2, 1/2] holds no bin,
its power is 0, and it is dominated by the power over [0, 1]. -/
theorem C7_band_power_monotone_witness :
    calculate_power wfPts [] (1 / 2) (1 / 2) ≤ calculate_power wfPts [] 0 1 ∧
    calculate_power wfPts [] (1 / 2) (1 / 2) = 0 := by
  have h := C7_band_power_monotone wfPts [] (1 / 2) (1 / 2) 0 1
    (by norm_num [SortedF, wfPts, List.pairwise_cons])
    (by norm_num [NonnegP, wfPts])
    (by norm_num) (by norm_num)
  refine ⟨h.1, h.2 ?_⟩
  norm_num [wfPts]

/-! Lemmas about the segment loop. -/

theorem segResult_minute (welchF : List ℚ → List (ℚ × ℚ))
    (i1 i2 i3 s2 s3 : List ℚ) (b : FVal) (sb : ℚ) (u : ℕ → ℚ) (m : ℕ) :
    (segResult welchF i1 i2 i3 s2 s3 b sb u m).minute = m + 1 := rfl

theorem segResult_stress_level (welchF : List ℚ → List (ℚ × ℚ))
    (i1 i2 i3 s2 s3 : List ℚ) (b : FVal) (sb : ℚ) (u : ℕ → ℚ) (m : ℕ) :
    (segResult welchF i1 i2 i3 s2 s3 b sb u m).stress_level =
      (classify_segment (segment_ibi_ratio welchF i1 i2 i3 m)
        (segment_scl_lf welchF s2 s3 m) b sb (u m)).1 := rfl

theorem segResult_numeric_label (welchF : List ℚ → List (ℚ × ℚ))
    (i1 i2 i3 s2 s3 : List ℚ) (b : FVal) (sb : ℚ) (u : ℕ → ℚ) (m : ℕ) :
    (segResult welchF i1 i2 i3 s2 s3 b sb u m).numeric_label =
      (classify_segment (segment_ibi_ratio welchF i1 i2 i3 m)
        (segment_scl_lf welchF s2 s3 m) b sb (u m)).2.1 := rfl

theorem segResult_oxygen_level (welchF : List ℚ → List (ℚ × ℚ))
    (i1 i2 i3 s2 s3 : List ℚ) (b : FVal) (sb : ℚ) (u : ℕ → ℚ) (m : ℕ) :
    (segResult welchF i1 i2 i3 s2 s3 b sb u m).oxygen_level =
      (classify_segment (segment_ibi_ratio welchF i1 i2 i3 m)
        (segment_scl_lf welchF s2 s3 m) b sb (u m)).2.2 := rfl

theorem segLoop_zero (welchF : List ℚ → List (ℚ × ℚ))
    (i1 i2 i3 s2 s3 : List ℚ) (b : FVal) (sb : ℚ) (u : ℕ → ℚ) (L m : ℕ) :
    segLoop welchF i1 i2 i3 s2 s3 b sb u L 0 m = [] := rfl

theorem segLoop_succ (welchF : List ℚ → List (ℚ × ℚ))
    (i1 i2 i3 s2 s3 : List ℚ) (b : FVal) (sb : ℚ) (u : ℕ → ℚ) (L k m : ℕ) :
    segLoop welchF i1 i2 i3 s2 s3 b sb u L (k + 1) m =
      if L < 180 + (m + 1) * 60 then []
      else segResult welchF i1 i2 i3 s2 s3 b sb u m ::
        segLoop welchF i1 i2 i3 s2 s3 b sb u L k (m + 1) := rfl

theorem segLoop_shape (welchF : List ℚ → List (ℚ × ℚ))
    (i1 i2 i3 s2 s3 : List ℚ) (b : FVal) (sb : ℚ) (u : ℕ → ℚ) (L : ℕ) :
    ∀ k m, (∀ j, j < k → 180 + (m + j + 1) * 60 ≤ L) →
      (segLoop welchF i1 i2 i3 s2 s3 b sb u L k m).length = k ∧
      (segLoop welchF i1 i2 i3 s2 s3 b sb u L k m).map (fun r => r.minute) =
        List.range' (m + 1) k := by
  intro k
  induction k with
  | zero => intro m _; exact ⟨rfl, rfl⟩
  | succ k ih =>
    intro m h
    have hc : ¬ L < 180 + (m + 1) * 60 := by
      have h0 := h 0 (Nat.succ_pos k)
      omega
    rw [segLoop_succ, if_neg hc]
    have ih2 := ih (m + 1) (fun j hj => by
      have hj2 := h (j + 1) (by omega)
      omega)
    refine ⟨by simp [ih2.1], ?_⟩
    rw [List.map_cons, segResult_minute, ih2.2, List.range'_succ]

theorem segLoop_mem (welchF : List ℚ → List (ℚ × ℚ))
    (i1 i2 i3 s2 s3 : List ℚ) (b : FVal) (sb : ℚ) (u : ℕ → ℚ) (L : ℕ)
    (P : MinuteResult → Prop)
    (hP : ∀ m, P (segResult welchF i1 i2 i3 s2 s3 b sb u m)) :
    ∀ k m r, r ∈ segLoop welchF i1 i2 i3 s2 s3 b sb u L k m → P r := by
  intro k
  induction k with
  | zero => intro m r hr; rw [segLoop_zero] at hr; cases hr
  | succ k ih =>
    intro m r hr
    rw [segLoop_succ] at hr
    by_cases hc : L < 180 + (m + 1) * 60
    · rw [if_pos hc] at hr; cases hr
    · rw [if_neg hc] at hr
      rcases List.mem_cons.mp hr with h | h
      · rw [h]; exact hP m
      · exact ih (m + 1) r h

/-- C2 (amended): the number of returned records equals
min(requested_minutes, floor(L/60) - 3) clamped below at zero (its toNat) —
when that minimum is non-negative this is exactly the claimed minimum — and
the minute fields form the contiguous 1-based sequence 1..len(results): the
in-loop break of lines 227-228 never fires. -/
theorem C2_results_shape (welchF : List ℚ → List (ℚ × ℚ))
    (ibi_imf1 ibi_imf2 ibi_imf3 scl_imf2 scl_imf3 : List ℚ)
    (L : ℕ) (minutes : ℤ) (u : ℕ → ℚ) :
    (analysisResults welchF ibi_imf1 ibi_imf2 ibi_imf3 scl_imf2 scl_imf3 L minutes u).length =
        (min minutes ((L : ℤ) / 60 - 3)).toNat ∧
    (analysisResults welchF ibi_imf1 ibi_imf2 ibi_imf3 scl_imf2 scl_imf3 L minutes u).map
        (fun r => r.minute) =
      List.range' 1
        (analysisResults welchF ibi_imf1 ibi_imf2 ibi_imf3 scl_imf2 scl_imf3 L minutes u).length := by
  have hmin : analysis_minutes minutes L = min minutes ((L : ℤ) / 60 - 3) := by
    simp [analysis_minutes]
  have key := segLoop_shape welchF ibi_imf1 ibi_imf2 ibi_imf3 scl_imf2 scl_imf3
    (ibi_baseline_of welchF ibi_imf1 ibi_imf2 ibi_imf3)
    (scl_baseline_of welchF scl_imf2 scl_imf3) u L
    (analysis_minutes minutes L).toNat 0
    (by
      intro j hj
      simp only [analysis_minutes] at hj
      omega)
  unfold analysisResults
  rw [← hmin]
  exact ⟨key.1, by rw [key.2, key.1]⟩

/-- C2 counterexample: for a decomposed signal of length 100 with 5 requested
minutes the analysis returns 0 records, while min(requested, floor(L/60) - 3)
is -2; the claimed identity fails whenever that minimum is negative. -/
theorem C2_counterexample :
    ((analysisResults wfEmpty [] [] [] [] [] 100 5 uZero).length : ℤ) ≠
      min 5 ((100 : ℤ) / 60 - 3) := by
  have h : (analysisResults wfEmpty [] [] [] [] [] 100 5 uZero).length = 0 := rfl
  rw [h]
  decide

/-- C1: the stress label is a pure function of the two flags
ibi_flag = (ibi_ratio > ibi_threshold) and eda_flag = (eda_lf > eda_threshold):
both true gives High Stress with numeric label 2, exactly one true gives
Mild Stress with 1, neither gives No Stress with 0. -/
theorem C1_classification (ibi_ratio : FVal) (scl_lf : ℚ) (ibi_baseline : FVal)
    (scl_baseline : ℚ) (u : ℚ) :
    (FVal.gt ibi_ratio ibi_baseline = true → decide (scl_baseline < scl_lf) = true →
      ((classify_segment ibi_ratio scl_lf ibi_baseline scl_baseline u).1,
        (classify_segment ibi_ratio scl_lf ibi_baseline scl_baseline u).2.1) =
        ("High Stress", 2)) ∧
    (FVal.gt ibi_ratio ibi_baseline ≠ decide (scl_baseline < scl_lf) →
      ((classify_segment ibi_ratio scl_lf ibi_baseline scl_baseline u).1,
        (classify_segment ibi_ratio scl_lf ibi_baseline scl_baseline u).2.1) =
        ("Mild Stress", 1)) ∧
    (FVal.gt ibi_ratio ibi_baseline = false → decide (scl_baseline < scl_lf) = false →
      ((classify_segment ibi_ratio scl_lf ibi_baseline scl_baseline u).1,
        (classify_segment ibi_ratio scl_lf ibi_baseline scl_baseline u).2.1) =
        ("No Stress", 0)) ∧
    (∀ (r2 : FVal) (s2 : ℚ) (b2 : FVal) (c2 u2 : ℚ),
      FVal.gt ibi_ratio ibi_baseline = FVal.gt r2 b2 →
      decide (scl_baseline < scl_lf) = decide (c2 < s2) →
      (classify_segment ibi_ratio scl_lf ibi_baseline scl_baseline u).1 =
          (classify_segment r2 s2 b2 c2 u2).1 ∧
        (classify_segment ibi_ratio scl_lf ibi_baseline scl_baseline u).2.1 =
          (classify_segment r2 s2 b2 c2 u2).2.1) := by
  have main : ∀ (r : FVal) (s : ℚ) (b : FVal) (c v : ℚ),
      ((classify_segment r s b c v).1, (classify_segment r s b c v).2.1) =
        (if FVal.gt r b && decide (c < s) then ("High Stress", 2)
         else if FVal.gt r b || decide (c < s) then ("Mild Stress", 1)
         else ("No Stress", 0)) := by
    intro r s b c v
    cases h1 : FVal.gt r b <;> cases h2 : decide (c < s) <;>
      simp [classify_segment, h1, h2]
  refine ⟨?_, ?_, ?_, ?_⟩
  · intro h1 h2
    rw [main, h1, h2]
    rfl
  · intro hne
    rw [main]
    cases h1 : FVal.gt ibi_ratio ibi_baseline <;>
      cases h2 : decide (scl_baseline < scl_lf) <;>
        simp_all
  · intro h1 h2
    rw [main, h1, h2]
    rfl
  · intro r2 s2 b2 c2 u2 he1 he2
    have m1 := main ibi_ratio scl_lf ibi_baseline scl_baseline u
    have m2 := main r2 s2 b2 c2 u2
    rw [he1, he2] at m1
    have heq := m1.trans m2.symm
    injection heq with h1 h2
    exact ⟨h1, h2⟩

/-- Witness for C1 at flags (true, true). -/
theorem C1_classification_witness :
    ((classify_segment (FVal.val 1) 1 (FVal.val 0) 0 0).1,
      (classify_segment (FVal.val 1) 1 (FVal.val 0) 0 0).2.1) = ("High Stress", 2) :=
  (C1_classification (FVal.val 1) 1 (FVal.val 0) 0 0).1
    (by norm_num [FVal.gt]) (by norm_num)

theorem FVal_gt_nan (x : FVal) : FVal.gt x FVal.nan = false := by
  cases x <;> rfl

theorem classify_nan_not_high (r : FVal) (s sb v : ℚ) :
    (classify_segment r s FVal.nan sb v).1 ≠ "High Stress" ∧
    (classify_segment r s FVal.nan sb v).2.1 ≤ 1 := by
  have hf : FVal.gt r FVal.nan = false := FVal_gt_nan r
  cases h2 : decide (sb < s) <;> simp [classify_segment, hf, h2]

/-- C3: when the baseline IBI HF power is exactly zero the IBI threshold is
the NaN sentinel, the comparison of any ratio against it is false, and no
segment of the run is classified High Stress (the EDA flag alone reaches at
most Mild Stress, numeric label 1); the analysis still returns a list. -/
theorem C3_zero_hf_baseline (welchF : List ℚ → List (ℚ × ℚ))
    (ibi_imf1 ibi_imf2 ibi_imf3 scl_imf2 scl_imf3 : List ℚ)
    (L : ℕ) (minutes : ℤ) (u : ℕ → ℚ)
    (h0 : calculate_power welchF (pySlice ibi_imf1 0 180) 0.1 0.4 = 0) :
    ibi_baseline_of welchF ibi_imf1 ibi_imf2 ibi_imf3 = FVal.nan ∧
    (∀ x : FVal, FVal.gt x FVal.nan = false) ∧
    ∀ r ∈ analysisResults welchF ibi_imf1 ibi_imf2 ibi_imf3 scl_imf2 scl_imf3 L minutes u,
      r.stress_level ≠ "High Stress" ∧ r.numeric_label ≤ 1 := by
  have hbase : ibi_baseline_of welchF ibi_imf1 ibi_imf2 ibi_imf3 = FVal.nan := by
    simp [ibi_baseline_of, h0]
  refine ⟨hbase, FVal_gt_nan, ?_⟩
  intro r hr
  unfold analysisResults at hr
  rw [hbase] at hr
  refine segLoop_mem welchF ibi_imf1 ibi_imf2 ibi_imf3 scl_imf2 scl_imf3 FVal.nan
    (scl_baseline_of welchF scl_imf2 scl_imf3) u L
    (fun r => r.stress_level ≠ "High Stress" ∧ r.numeric_label ≤ 1) ?_ _ _ r hr
  intro m
  rw [segResult_stress_level, segResult_numeric_label]
  exact classify_nan_not_high _ _ _ _

/-- Witness for C3: the NaN comparison at a concrete ratio, through a run
whose baseline HF power is 0. -/
theorem C3_zero_hf_baseline_witness : FVal.gt (FVal.val 3) FVal.nan = false :=
  (C3_zero_hf_baseline wfEmpty [] [] [] [] [] 240 1 uZero rfl).2.1 (FVal.val 3)

/-- C4 counterexample: a segment whose IBI HF power is exactly zero gets the
internal ratio NaN — the same sentinel as calibration — not the claimed 0. -/
theorem C4_counterexample :
    calculate_power wfEmpty (pySlice [] (180 + 0 * 60) (180 + 0 * 60 + 60)) 0.1 0.4 = 0 ∧
    segment_ibi_ratio wfEmpty [] [] [] 0 ≠ FVal.val 0 :=
  ⟨rfl, by simp [segment_ibi_ratio, calculate_power, wfEmpty, pySlice]⟩

/-- C4 (amended): for a segment whose IBI HF power is exactly zero the
internal ratio is the NaN sentinel (the same policy as calibration, not 0),
the ibi_flag comparison is false against any threshold, and the reported
ibi_lf_hf_ratio field is 0. -/
theorem C4_zero_hf_segment (welchF : List ℚ → List (ℚ × ℚ))
    (ibi_imf1 ibi_imf2 ibi_imf3 scl_imf2 scl_imf3 : List ℚ)
    (ibi_baseline : FVal) (scl_baseline : ℚ) (u : ℕ → ℚ) (m : ℕ)
    (h0 : calculate_power welchF
      (pySlice ibi_imf1 (180 + m * 60) (180 + m * 60 + 60)) 0.1 0.4 = 0) :
    segment_ibi_ratio welchF ibi_imf1 ibi_imf2 ibi_imf3 m = FVal.nan ∧
    FVal.gt (segment_ibi_ratio welchF ibi_imf1 ibi_imf2 ibi_imf3 m) ibi_baseline = false ∧
    (segResult welchF ibi_imf1 ibi_imf2 ibi_imf3 scl_imf2 scl_imf3
        ibi_baseline scl_baseline u m).ibi_lf_hf_ratio = 0 := by
  have hr : segment_ibi_ratio welchF ibi_imf1 ibi_imf2 ibi_imf3 m = FVal.nan := by
    simp [segment_ibi_ratio, h0]
  refine ⟨hr, ?_, ?_⟩
  · rw [hr]
    cases ibi_baseline <;> rfl
  · show FVal.orZero (segment_ibi_ratio welchF ibi_imf1 ibi_imf2 ibi_imf3 m) = 0
    rw [hr]
    rfl

/-- Witness for C4's amended statement at a concrete zero-power segment. -/
theorem C4_zero_hf_segment_witness :
    segment_ibi_ratio wfEmpty [] [] [] 0 = FVal.nan ∧
    FVal.gt (segment_ibi_ratio wfEmpty [] [] [] 0) (FVal.val 0) = false ∧
    (segResult wfEmpty [] [] [] [] [] (FVal.val 0) 0 uZero 0).ibi_lf_hf_ratio = 0 :=
  C4_zero_hf_segment wfEmpty [] [] [] [] [] (FVal.val 0) 0 uZero 0 rfl

theorem round2_bounds (a : ℤ) (x : ℚ) (h1 : (a : ℚ) ≤ x) (h2 : x ≤ (a : ℚ) + 2) :
    (a : ℚ) ≤ round2 x ∧ round2 x ≤ (a : ℚ) + 2 := by
  have e : round (x * 100) = ⌊x * 100 + 1 / 2⌋ := round_eq (x * 100)
  have lo : (100 * a : ℤ) ≤ round (x * 100) := by
    rw [e]
    apply Int.le_floor.mpr
    push_cast
    linarith
  have hi : round (x * 100) ≤ 100 * a + 200 := by
    rw [e]
    have hflt : ⌊x * 100 + 1 / 2⌋ < 100 * a + 201 := by
      apply Int.floor_lt.mpr
      push_cast
      linarith
    omega
  unfold round2
  constructor
  · rw [le_div_iff₀ (by norm_num : (0 : ℚ) < 100)]
    calc (a : ℚ) * 100 = ((100 * a : ℤ) : ℚ) := by push_cast; ring
    _ ≤ ((round (x * 100) : ℤ) : ℚ) := by exact_mod_cast lo
  · rw [div_le_iff₀ (by norm_num : (0 : ℚ) < 100)]
    calc ((round (x * 100) : ℤ) : ℚ) ≤ ((100 * a + 200 : ℤ) : ℚ) := by exact_mod_cast hi
    _ = ((a : ℚ) + 2) * 100 := by push_cast; ring

theorem classify_eq_tt (r : FVal) (s : ℚ) (b : FVal) (c v : ℚ)
    (h1 : FVal.gt r b = true) (h2 : decide (c < s) = true) :
    classify_segment r s b c v = ("High Stress", 2, round2 (uniform 94 96 v)) := by
  simp [classify_segment, h1, h2]

theorem classify_eq_tf (r : FVal) (s : ℚ) (b : FVal) (c v : ℚ)
    (h1 : FVal.gt r b = true) (h2 : decide (c < s) = false) :
    classify_segment r s b c v = ("Mild Stress", 1, round2 (uniform 96 98 v)) := by
  simp [classify_segment, h1, h2]

theorem classify_eq_ft (r : FVal) (s : ℚ) (b : FVal) (c v : ℚ)
    (h1 : FVal.gt r b = false) (h2 : decide (c < s) = true) :
    classify_segment r s b c v = ("Mild Stress", 1, round2 (uniform 96 98 v)) := by
  simp [classify_segment, h1, h2]

theorem classify_eq_ff (r : FVal) (s : ℚ) (b : FVal) (c v : ℚ)
    (h1 : FVal.gt r b = false) (h2 : decide (c < s) = false) :
    classify_segment r s b c v = ("No Stress", 0, round2 (uniform 98 100 v)) := by
  simp [classify_segment, h1, h2]

theorem classify_oxygen (r : FVal) (s : ℚ) (b : FVal) (c v : ℚ)
    (hv0 : 0 ≤ v) (hv1 : v ≤ 1) :
    (∃ z : ℤ, (classify_segment r s b c v).2.2 = (z : ℚ) / 100) ∧
    ((classify_segment r s b c v).1 = "High Stress" →
      94 ≤ (classify_segment r s b c v).2.2 ∧ (classify_segment r s b c v).2.2 ≤ 96) ∧
    ((classify_segment r s b c v).1 = "Mild Stress" →
      96 ≤ (classify_segment r s b c v).2.2 ∧ (classify_segment r s b c v).2.2 ≤ 98) ∧
    ((classify_segment r s b c v).1 = "No Stress" →
      98 ≤ (classify_segment r s b c v).2.2 ∧ (classify_segment r s b c v).2.2 ≤ 100) := by
  have h94 : (94 : ℚ) ≤ uniform 94 96 v ∧ uniform 94 96 v ≤ 94 + 2 := by
    unfold uniform; constructor <;> nlinarith
  have h96 : (96 : ℚ) ≤ uniform 96 98 v ∧ uniform 96 98 v ≤ 96 + 2 := by
    unfold uniform; constructor <;> nlinarith
  have h98 : (98 : ℚ) ≤ uniform 98 100 v ∧ uniform 98 100 v ≤ 98 + 2 := by
    unfold uniform; constructor <;> nlinarith
  have b94 := round2_bounds 94 (uniform 94 96 v) (by exact_mod_cast h94.1)
    (by push_cast; exact h94.2)
  have b96 := round2_bounds 96 (uniform 96 98 v) (by exact_mod_cast h96.1)
    (by push_cast; exact h96.2)
  have b98 := round2_bounds 98 (uniform 98 100 v) (by exact_mod_cast h98.1)
    (by push_cast; exact h98.2)
  cases h1 : FVal.gt r b <;> cases h2 : decide (c < s)
  · rw [classify_eq_ff r s b c v h1 h2]
    refine ⟨⟨round (uniform 98 100 v * 100), rfl⟩, ?_, ?_, ?_⟩
    · intro hl; simp at hl
    · intro hl; simp at hl
    · intro _
      refine ⟨by exact_mod_cast b98.1, ?_⟩
      have hb := b98.2
      push_cast at hb
      linarith
  · rw [classify_eq_ft r s b c v h1 h2]
    refine ⟨⟨round (uniform 96 98 v * 100), rfl⟩, ?_, ?_, ?_⟩
    · intro hl; simp at hl
    · intro _
      refine ⟨by exact_mod_cast b96.1, ?_⟩
      have hb := b96.2
      push_cast at hb
      linarith
    · intro hl; simp at hl
  · rw [classify_eq_tf r s b c v h1 h2]
    refine ⟨⟨round (uniform 96 98 v * 100), rfl⟩, ?_, ?_, ?_⟩
    · intro hl; simp at hl
    · intro _
      refine ⟨by exact_mod_cast b96.1, ?_⟩
      have hb := b96.2
      push_cast at hb
      linarith
    · intro hl; simp at hl
  · rw [classify_eq_tt r s b c v h1 h2]
    refine ⟨⟨round (uniform 94 96 v * 100), rfl⟩, ?_, ?_, ?_⟩
    · intro _
      refine ⟨by exact_mod_cast b94.1, ?_⟩
      have hb := b94.2
      push_cast at hb
      linarith
    · intro hl; simp at hl
    · intro hl; simp at hl

/-- C5: every MinuteResult's oxygen_level is a 2-decimal value and lies in
the closed interval declared for its label — High Stress in [94, 96],
Mild Stress in [96, 98], No Stress in [98, 100] — provided every uniform
draw lies in the unit interval. -/
theorem C5_oxygen_bounds (welchF : List ℚ → List (ℚ × ℚ))
    (ibi_imf1 ibi_imf2 ibi_imf3 scl_imf2 scl_imf3 : List ℚ)
    (L : ℕ) (minutes : ℤ) (u : ℕ → ℚ) (hu : ∀ n, 0 ≤ u n ∧ u n ≤ 1) :
    ∀ r ∈ analysisResults welchF ibi_imf1 ibi_imf2 ibi_imf3 scl_imf2 scl_imf3 L minutes u,
      (∃ z : ℤ, r.oxygen_level = (z : ℚ) / 100) ∧
      (r.stress_level = "High Stress" → 94 ≤ r.oxygen_level ∧ r.oxygen_level ≤ 96) ∧
      (r.stress_level = "Mild Stress" → 96 ≤ r.oxygen_level ∧ r.oxygen_level ≤ 98) ∧
      (r.stress_level = "No Stress" → 98 ≤ r.oxygen_level ∧ r.oxygen_level ≤ 100) := by
  intro r hr
  unfold analysisResults at hr
  refine segLoop_mem welchF ibi_imf1 ibi_imf2 ibi_imf3 scl_imf2 scl_imf3
    (ibi_baseline_of welchF ibi_imf1 ibi_imf2 ibi_imf3)
    (scl_baseline_of welchF scl_imf2 scl_imf3) u L
    (fun r =>
      (∃ z : ℤ, r.oxygen_level = (z : ℚ) / 100) ∧
      (r.stress_level = "High Stress" → 94 ≤ r.oxygen_level ∧ r.oxygen_level ≤ 96) ∧
      (r.stress_level = "Mild Stress" → 96 ≤ r.oxygen_level ∧ r.oxygen_level ≤ 98) ∧
      (r.stress_level = "No Stress" → 98 ≤ r.oxygen_level ∧ r.oxygen_level ≤ 100)) ?_ _ _ r hr
  intro m
  rw [segResult_stress_level, segResult_oxygen_level]
  exact classify_oxygen _ _ _ _ _ (hu m).1 (hu m).2

/-- Witness for C5 on a one-segment run with the constant-zero draw stream. -/
theorem C5_oxygen_bounds_witness :
    (∃ z : ℤ,
        (segResult wfEmpty [] [] [] [] [] (ibi_baseline_of wfEmpty [] [] [])
            (scl_baseline_of wfEmpty [] []) uZero 0).oxygen_level = (z : ℚ) / 100) ∧
    ((segResult wfEmpty [] [] [] [] [] (ibi_baseline_of wfEmpty [] [] [])
          (scl_baseline_of wfEmpty [] []) uZero 0).stress_level = "High Stress" →
      94 ≤ (segResult wfEmpty [] [] [] [] [] (ibi_baseline_of wfEmpty [] [] [])
          (scl_baseline_of wfEmpty [] []) uZero 0).oxygen_level ∧
        (segResult wfEmpty [] [] [] [] [] (ibi_baseline_of wfEmpty [] [] [])
          (scl_baseline_of wfEmpty [] []) uZero 0).oxygen_level ≤ 96) ∧
    ((segResult wfEmpty [] [] [] [] [] (ibi_baseline_of wfEmpty [] [] [])
          (scl_baseline_of wfEmpty [] []) uZero 0).stress_level = "Mild Stress" →
      96 ≤ (segResult wfEmpty [] [] [] [] [] (ibi_baseline_of wfEmpty [] [] [])
          (scl_baseline_of wfEmpty [] []) uZero 0).oxygen_level ∧
        (segResult wfEmpty [] [] [] [] [] (ibi_baseline_of wfEmpty [] [] [])
          (scl_baseline_of wfEmpty [] []) uZero 0).oxygen_level ≤ 98) ∧
    ((segResult wfEmpty [] [] [] [] [] (ibi_baseline_of wfEmpty [] [] [])
          (scl_baseline_of wfEmpty [] []) uZero 0).stress_level = "No Stress" →
      98 ≤ (segResult wfEmpty [] [] [] [] [] (ibi_baseline_of wfEmpty [] [] [])
          (scl_baseline_of wfEmpty [] []) uZero 0).oxygen_level ∧
        (segResult wfEmpty [] [] [] [] [] (ibi_baseline_of wfEmpty [] [] [])
          (scl_baseline_of wfEmpty [] []) uZero 0).oxygen_level ≤ 100) := by
  have hk : (analysis_minutes 1 240).toNat = 1 := by decide
  have hlist : analysisResults wfEmpty [] [] [] [] [] 240 1 uZero =
      [segResult wfEmpty [] [] [] [] [] (ibi_baseline_of wfEmpty [] [] [])
        (scl_baseline_of wfEmpty [] []) uZero 0] := by
    unfold analysisResults
    rw [hk, segLoop_succ, if_neg (by norm_num), segLoop_zero]
  refine C5_oxygen_bounds wfEmpty [] [] [] [] [] 240 1 uZero
    (fun n => ⟨le_refl 0, by norm_num [uZero]⟩) _ ?_
  rw [hlist]
  exact List.mem_singleton.mpr rfl

/-- C6: aggregation — stressed_minutes counts results with positive numeric
label, total_minutes is the result count, stress_score is the string
"stressed/total", oxygen_levels is the ordered oxygen projection, and the
result list is returned unchanged. -/
theorem C6_aggregate (results : List MinuteResult) :
    (aggregate results).stressed_minutes =
        (results.filter (fun r => decide (0 < r.numeric_label))).length ∧
    (aggregate results).total_minutes = results.length ∧
    (aggregate results).stress_score =
        toString ((results.filter (fun r => decide (0 < r.numeric_label))).length) ++ "/" ++
          toString results.length ∧
    (aggregate results).oxygen_levels = results.map (fun r => r.oxygen_level) ∧
    (aggregate results).results = results := by
  refine ⟨?_, rfl, ?_, rfl, rfl⟩
  · simp [aggregate, List.countP_eq_length_filter]
  · simp [aggregate, List.countP_eq_length_filter]

/-- C8: cache round-trip and invalidation — computing a decomposition writes
the cache entry; calling again on the same signal hits the cache and returns
the ComponentSet computed before caching; and for a signal whose content
differs (under a collision-free content hash) the stored hash differs, the
lookup misses, and the decomposition is recomputed and the entry
overwritten. -/
theorem C8_cache_roundtrip {H : Type} [DecidableEq H]
    (decomp : List ℚ → List (List ℚ)) (hashF : List ℚ → H)
    (hinj : Function.Injective hashF) (s s2 : List ℚ) (hne : s ≠ s2) :
    (perform_ceemdan_cached decomp hashF s none).1 = decomp s ∧
    (perform_ceemdan_cached decomp hashF s none).2 =
      some { hash := hashF s, imfs := decomp s } ∧
    (perform_ceemdan_cached decomp hashF s
        (perform_ceemdan_cached decomp hashF s none).2).1 =
      (perform_ceemdan_cached decomp hashF s none).1 ∧
    hashF s2 ≠ hashF s ∧
    (perform_ceemdan_cached decomp hashF s2
        (perform_ceemdan_cached decomp hashF s none).2).1 = decomp s2 ∧
    (perform_ceemdan_cached decomp hashF s2
        (perform_ceemdan_cached decomp hashF s none).2).2 =
      some { hash := hashF s2, imfs := decomp s2 } := by
  have hdiff : hashF s2 ≠ hashF s := fun h => hne (hinj h).symm
  refine ⟨rfl, rfl, ?_, hdiff, ?_, ?_⟩
  · show (perform_ceemdan_cached decomp hashF s
      (some { hash := hashF s, imfs := decomp s })).1 = decomp s
    simp [perform_ceemdan_cached]
  · show (perform_ceemdan_cached decomp hashF s2
      (some { hash := hashF s, imfs := decomp s })).1 = decomp s2
    simp [perform_ceemdan_cached, hdiff.symm]
  · show (perform_ceemdan_cached decomp hashF s2
      (some { hash := hashF s, imfs := decomp s })).2 =
      some { hash := hashF s2, imfs := decomp s2 }
    simp [perform_ceemdan_cached, hdiff.symm]

/-- Witness for C8 under the identity hash: the hashes of the two signals
differ. -/
theorem C8_cache_roundtrip_witness : idHash [1] ≠ idHash [0] :=
  (C8_cache_roundtrip constDecomp idHash (fun a b h => h) [0] [1]
    (by simp)).2.2.2.1

/-- C9: every data-source failure degrades to the synthetic fallback frame —
no locator at all, a fetch that returns none (timeout, HTTP or JSON error,
payload without feeds, the dummy-endpoint check), and a parsed payload with
empty columns (mismatched field names) — and the fallback frame holds
(180 + minutes) * 60 one-second samples per column; data acquisition is
total, so none of these failures aborts the analysis. -/
theorem C9_fallback (net : String → FetchOutcome) (hr eda : ℕ → ℚ)
    (minutes : ℤ) (url : String) (hm : 0 ≤ minutes) :
    acquire_data net hr eda minutes none = generate_dummy_data hr eda minutes ∧
    (fetch_thingspeak_data net url = none →
      acquire_data net hr eda minutes (some url) = generate_dummy_data hr eda minutes) ∧
    (strContains url "dummy-thingspeak" = false → strContains url "localhost:8000" = false →
      net url = FetchOutcome.failure → fetch_thingspeak_data net url = none) ∧
    (∀ df : DataFrame, fetch_thingspeak_data net url = some df → df.HR.length = 0 →
      acquire_data net hr eda minutes (some url) = generate_dummy_data hr eda minutes) ∧
    ((generate_dummy_data hr eda minutes).HR.length : ℤ) = (180 + minutes) * 60 ∧
    ((generate_dummy_data hr eda minutes).EDA.length : ℤ) = (180 + minutes) * 60 := by
  have hlen : (((180 + minutes) * 60).toNat : ℤ) = (180 + minutes) * 60 :=
    Int.toNat_of_nonneg (by nlinarith)
  refine ⟨rfl, ?_, ?_, ?_, ?_, ?_⟩
  · intro hfetch
    unfold acquire_data
    by_cases hurl : url = ""
    · simp [hurl]
    · simp [hurl, hfetch]
  · intro hd1 hd2 hfail
    unfold fetch_thingspeak_data
    rw [hd1, hd2, hfail]
    rfl
  · intro df hdf hempty
    unfold acquire_data
    by_cases hurl : url = ""
    · simp [hurl]
    · simp [hurl, hdf, hempty]
  · simp [generate_dummy_data]
    omega
  · simp [generate_dummy_data]
    omega

/-- Witness for C9 with the always-failing network stub at zero requested
minutes. -/
theorem C9_fallback_witness :
    ((generate_dummy_data hrConst hrConst 0).HR.length : ℤ) = (180 + 0) * 60 :=
  (C9_fallback netFail hrConst hrConst 0 "http://example.org" (by norm_num)).2.2.2.2.1

/-- C10: the responses of two analysis requests agreeing on minutes and
thingspeak_url but differing arbitrarily in use_dummy_data are identical —
the handler never reads the use_dummy_data field. -/
theorem C10_flag_unused (welchF : List ℚ → List (ℚ × ℚ))
    (freqOf : List ℚ → ℕ → List ℚ) (net : String → FetchOutcome)
    (hr eda : ℕ → ℚ) (u : ℕ → ℚ) (r1 r2 : AnalysisRequest)
    (hmin : r1.minutes = r2.minutes) (hurl : r1.thingspeak_url = r2.thingspeak_url) :
    analyze_stress welchF freqOf net hr eda u r1 =
      analyze_stress welchF freqOf net hr eda u r2 := by
  cases r1 with
  | mk m1 url1 flag1 =>
    cases r2 with
    | mk m2 url2 flag2 =>
      simp only at hmin hurl
      subst hmin
      subst hurl
      rfl

/-- Witness for C10: two concrete requests differing only in the flag give
the same response. -/
theorem C10_flag_unused_witness :
    analyze_stress wfEmpty freqNil netFail hrConst hrConst uZero
        { minutes := 5, thingspeak_url := none, use_dummy_data := true } =
      analyze_stress wfEmpty freqNil netFail hrConst hrConst uZero
        { minutes := 5, thingspeak_url := none, use_dummy_data := false } :=
  C10_flag_unused wfEmpty freqNil netFail hrConst hrConst uZero _ _ rfl rfl

end StressAnalysis
